import Mathlib

/-!
Shallow embedding of the Blackwood Mansion interactive-fiction engine
(`MAIN.py`): the data model (`Evidence`, `Choice`, `GameState`), the
precondition evaluator (`can_make_choice`), the effect applicator
(`apply_choice_effects`), the time-sensitive description selector, the
ending resolver (`check_ending_conditions`) and the location-transition
fragments of the turn loop, together with theorems settling the spec
claims about them.

Python dictionaries are embedded as functions into `Option` (for the
mutable `flags` and `relationships` maps) or as association lists (for
the literal content data).  A Python `KeyError` raised by
`relationships[k] += d` on a missing key is embedded as `Option.none`
propagating out of `apply_choice_effects`.
-/

namespace Blackwood

/-- An evidence item, from the `Evidence` dataclass of `MAIN.py`. -/
structure Evidence where
  name : String
  descr : String
  tags : List String
deriving DecidableEq

/-- A choice, from the `Choice` dataclass of `MAIN.py`.  Fields that
default to `None` in Python are `Option`s defaulting to `none`. -/
structure Choice where
  descr : String
  next_location : String
  required_items : Option (List String) := none
  required_flags : Option (List (String × Bool)) := none
  required_evidence : Option (List String) := none
  time_cost : Int := 1
  stress_change : Int := 0
  inventory_add : Option (List String) := none
  inventory_remove : Option (List String) := none
  flags_change : Option (List (String × Bool)) := none
  evidence_add : Option (List Evidence) := none
  relationship_changes : Option (List (String × Int)) := none
  track_change : Option String := none
deriving DecidableEq

/-- The mutable game state, from the `GameState` dataclass of `MAIN.py`.
The `flags` and `relationships` dictionaries are embedded as functions
into `Option`; a key is "present" when the function returns `some`. -/
structure GameState where
  inventory : List String
  evidence : List Evidence
  flags : String → Option Bool
  current_location : String
  relationships : String → Option Int
  time_remaining : Int
  stress_level : Int
  current_track : String

/-- Python truthiness of an optional list: `None` and `[]` are falsy. -/
def listTruthy {α : Type} : Option (List α) → Bool
  | none => false
  | some l => !l.isEmpty

/-- The list carried by an optional field, `[]` when the field is `None`. -/
def optList {α : Type} (o : Option (List α)) : List α := o.getD []

/-- Precondition evaluator, translated from
`BlackwoodMansionGame.can_make_choice` (`MAIN.py` lines 1046-1055):
three guarded early-`False` returns over required items, flags and
evidence.  `state.flags.get(flag) == value` is embedded as
`s.flags fv.1 == some fv.2`: an absent flag yields `none`, which is
never equal to `some v` (Python `None == bool` is `False`). -/
def can_make_choice (choice : Choice) (s : GameState) : Bool :=
  if listTruthy choice.required_items
      && !((optList choice.required_items).all (fun item => s.inventory.contains item)) then
    false
  else if listTruthy choice.required_flags
      && !((optList choice.required_flags).all (fun fv => s.flags fv.1 == some fv.2)) then
    false
  else if listTruthy choice.required_evidence
      && !((optList choice.required_evidence).all
            (fun req => s.evidence.any (fun e => e.name == req))) then
    false
  else
    true

theorem listTruthy_guard {α : Type} (o : Option (List α)) (p : α → Bool) :
    (listTruthy o && !((optList o).all p)) = !((optList o).all p) := by
  cases o with
  | none => simp [listTruthy, optList]
  | some l =>
    cases l with
    | nil => simp [listTruthy, optList]
    | cons a t => simp [listTruthy, optList]

theorem can_make_choice_eq (choice : Choice) (s : GameState) :
    can_make_choice choice s =
      ((optList choice.required_items).all (fun item => s.inventory.contains item)
        && (optList choice.required_flags).all (fun fv => s.flags fv.1 == some fv.2)
        && (optList choice.required_evidence).all
            (fun req => s.evidence.any (fun e => e.name == req))) := by
  unfold can_make_choice
  rw [listTruthy_guard, listTruthy_guard, listTruthy_guard]
  cases (optList choice.required_items).all (fun item => s.inventory.contains item) <;>
    cases (optList choice.required_flags).all (fun fv => s.flags fv.1 == some fv.2) <;>
      cases (optList choice.required_evidence).all
          (fun req => s.evidence.any (fun e => e.name == req)) <;>
        rfl

/-- C1: the precondition evaluator returns `true` iff every required
item is in the inventory, every required flag is present with exactly
the expected value (an absent flag fails even a `false` requirement),
and every required evidence name is the name of some collected evidence
item; each family is vacuous when the field is `None` or empty.  The
embedding is a pure function of the state, so the evaluation has no
side effects. -/
theorem can_make_choice_iff (choice : Choice) (s : GameState) :
    can_make_choice choice s = true ↔
      ((∀ item ∈ optList choice.required_items, item ∈ s.inventory) ∧
       (∀ fv ∈ optList choice.required_flags, s.flags fv.1 = some fv.2) ∧
       (∀ req ∈ optList choice.required_evidence, ∃ e ∈ s.evidence, e.name = req)) := by
  rw [can_make_choice_eq]
  simp only [Bool.and_eq_true, List.all_eq_true, List.any_eq_true, beq_iff_eq,
    List.contains, List.elem_eq_mem, decide_eq_true_eq, and_assoc]

/-- Idempotent inventory add, from the `inventory_add` loop of
`apply_choice_effects` (`MAIN.py` lines 1061-1064): append each item
unless it is already present. -/
def inv_add (inv : List String) (adds : List String) : List String :=
  adds.foldl (fun acc item => if acc.contains item then acc else acc ++ [item]) inv

/-- Inventory removal, from the `inventory_remove` loop of
`apply_choice_effects` (`MAIN.py` lines 1065-1068): remove the first
occurrence of each listed item when present (`List.erase` is a no-op on
an absent item, matching the `if item in ...` guard). -/
def inv_remove (inv : List String) (rems : List String) : List String :=
  rems.foldl (fun acc item => acc.erase item) inv

/-- Dictionary merge, from `self.state.flags.update(choice.flags_change)`
(`MAIN.py` line 1070): last write wins per key, unrelated keys untouched. -/
def flags_update (f : String → Option Bool) (changes : List (String × Bool)) :
    String → Option Bool :=
  changes.foldl (fun g kv => fun x => if x = kv.1 then some kv.2 else g x) f

/-- The names of a list of evidence items. -/
def evidence_names (l : List Evidence) : List String := l.map (fun e => e.name)

/-- Name-deduplicating evidence add, from the `evidence_add` loop of
`apply_choice_effects` (`MAIN.py` lines 1071-1074): append each evidence
object unless some already-collected item has the same name. -/
def ev_add (ev : List Evidence) (adds : List Evidence) : List Evidence :=
  adds.foldl
    (fun acc e => if (evidence_names acc).contains e.name then acc else acc ++ [e]) ev

/-- Relationship updates, from the `relationship_changes` loop of
`apply_choice_effects` (`MAIN.py` lines 1075-1077):
`relationships[character] += change` requires the key to be present and
raises `KeyError` otherwise, embedded as `none`. -/
def rel_apply : (String → Option Int) → List (String × Int) → Option (String → Option Int)
  | r, [] => some r
  | r, cd :: rest =>
    match r cd.1 with
    | none => none
    | some v => rel_apply (fun k => if k = cd.1 then some (v + cd.2) else r k) rest

/-- Effect applicator, translated from
`BlackwoodMansionGame.apply_choice_effects` (`MAIN.py` lines 1057-1079).
Each step reads and writes only its own state field, so the sequential
Python mutations are embedded as a single record update; a `KeyError`
from the relationship loop aborts the run (`none`).  A `track_change`
equal to the empty string is falsy in Python and is skipped. -/
def apply_choice_effects (choice : Choice) (s : GameState) : Option GameState :=
  match rel_apply s.relationships (optList choice.relationship_changes) with
  | none => none
  | some r =>
    some {
      inventory := inv_remove (inv_add s.inventory (optList choice.inventory_add))
        (optList choice.inventory_remove),
      evidence := ev_add s.evidence (optList choice.evidence_add),
      flags := flags_update s.flags (optList choice.flags_change),
      current_location := s.current_location,
      relationships := r,
      time_remaining := s.time_remaining - choice.time_cost,
      stress_level := max 0 (min 10 (s.stress_level + choice.stress_change)),
      current_track :=
        match choice.track_change with
        | none => s.current_track
        | some t => if t.isEmpty then s.current_track else t }

/-- The initial game state, from `BlackwoodMansionGame.__init__`
(`MAIN.py` lines 52-65): empty inventory, evidence and flags, current
location `mansion_entrance`, the five relationship keys at `0` (the
duplicate `"victoria"` entry of the Python dict literal collapses onto
the same key), `time_remaining = 24`, `stress_level = 0`, track `none`. -/
def initial_state : GameState where
  inventory := []
  evidence := []
  flags := fun _ => none
  current_location := "mansion_entrance"
  relationships := fun k =>
    if k = "elena" then some 0
    else if k = "james" then some 0
    else if k = "victoria" then some 0
    else if k = "gregory" then some 0
    else if k = "ada" then some 0
    else none
  time_remaining := 24
  stress_level := 0
  current_track := "none"

/-- C4: after applying any choice to a state with stress level in
`[0,10]`, the stress level is again in `[0,10]`, whatever the sign or
magnitude of `stress_change` (the code clamps with
`max(0, min(10, ...))`). -/
theorem stress_clamped (choice : Choice) (s t : GameState)
    (h : apply_choice_effects choice s = some t)
    (_h0 : 0 ≤ s.stress_level) (_h10 : s.stress_level ≤ 10) :
    0 ≤ t.stress_level ∧ t.stress_level ≤ 10 := by
  unfold apply_choice_effects at h
  cases hrel : rel_apply s.relationships (optList choice.relationship_changes) with
  | none => rw [hrel] at h; exact absurd h (by simp)
  | some r =>
    rw [hrel] at h
    simp only [Option.some.injEq] at h
    subst h
    constructor
    · exact le_max_left 0 _
    · exact max_le (by norm_num) (min_le_left 10 _)

theorem apply_fields (choice : Choice) (s t : GameState)
    (h : apply_choice_effects choice s = some t) :
    t.inventory = inv_remove (inv_add s.inventory (optList choice.inventory_add))
        (optList choice.inventory_remove)
      ∧ t.evidence = ev_add s.evidence (optList choice.evidence_add)
      ∧ t.flags = flags_update s.flags (optList choice.flags_change)
      ∧ t.current_location = s.current_location
      ∧ t.time_remaining = s.time_remaining - choice.time_cost
      ∧ t.stress_level = max 0 (min 10 (s.stress_level + choice.stress_change))
      ∧ rel_apply s.relationships (optList choice.relationship_changes)
          = some t.relationships := by
  unfold apply_choice_effects at h
  cases hrel : rel_apply s.relationships (optList choice.relationship_changes) with
  | none => rw [hrel] at h; exact absurd h (by simp)
  | some r =>
    rw [hrel] at h
    simp only [Option.some.injEq] at h
    subst h
    exact ⟨rfl, rfl, rfl, rfl, rfl, rfl, rfl⟩

/-- A probe choice with an out-of-range stress change, used to witness
the clamp property. -/
def clamp_probe_choice : Choice :=
  { descr := "probe", next_location := "main_hall", stress_change := 100 }

/-- The state after applying the probe choice to the initial state. -/
def clamp_probe_state : GameState :=
  (apply_choice_effects clamp_probe_choice initial_state).getD initial_state

theorem stress_clamped_witness :
    0 ≤ initial_state.stress_level ∧ initial_state.stress_level ≤ 10 ∧
      0 ≤ clamp_probe_state.stress_level ∧ clamp_probe_state.stress_level ≤ 10 := by
  have h := stress_clamped clamp_probe_choice initial_state clamp_probe_state rfl
    (by decide) (by decide)
  exact ⟨by decide, by decide, h.1, h.2⟩

theorem inv_add_nil (inv : List String) : inv_add inv [] = inv := rfl

theorem inv_add_cons (inv : List String) (a : String) (rest : List String) :
    inv_add inv (a :: rest)
      = inv_add (if inv.contains a then inv else inv ++ [a]) rest := rfl

theorem ev_add_nil (ev : List Evidence) : ev_add ev [] = ev := rfl

theorem ev_add_cons (ev : List Evidence) (e : Evidence) (rest : List Evidence) :
    ev_add ev (e :: rest)
      = ev_add (if (evidence_names ev).contains e.name then ev else ev ++ [e]) rest := rfl

theorem inv_remove_nil (inv : List String) : inv_remove inv [] = inv := rfl

theorem mem_inv_add_left (adds : List String) (inv : List String) (x : String)
    (hx : x ∈ inv) : x ∈ inv_add inv adds := by
  induction adds generalizing inv with
  | nil => exact hx
  | cons a rest ih =>
    rw [inv_add_cons]
    by_cases hc : inv.contains a
    · rw [if_pos hc]; exact ih inv hx
    · rw [if_neg hc]; exact ih _ (List.mem_append_left _ hx)

theorem mem_inv_add_adds (adds : List String) (inv : List String) (a : String)
    (ha : a ∈ adds) : a ∈ inv_add inv adds := by
  induction adds generalizing inv with
  | nil => cases ha
  | cons b rest ih =>
    rw [inv_add_cons]
    rcases List.mem_cons.mp ha with hab | hmem
    · subst hab
      by_cases hc : inv.contains a
      · rw [if_pos hc]
        exact mem_inv_add_left rest inv a (by simpa using hc)
      · rw [if_neg hc]
        exact mem_inv_add_left rest _ a (List.mem_append_right _ (by simp))
    · by_cases hc : inv.contains b
      · rw [if_pos hc]; exact ih inv hmem
      · rw [if_neg hc]; exact ih _ hmem

theorem inv_add_nodup (adds : List String) (inv : List String) (h : inv.Nodup) :
    (inv_add inv adds).Nodup := by
  induction adds generalizing inv with
  | nil => exact h
  | cons a rest ih =>
    rw [inv_add_cons]
    by_cases hc : inv.contains a
    · rw [if_pos hc]; exact ih inv h
    · rw [if_neg hc]
      refine ih _ ?ap
      have ha : a ∉ inv := by simpa using hc
      simp [List.nodup_append, h, ha]

theorem inv_add_eq_self (adds : List String) (inv : List String)
    (h : ∀ a ∈ adds, inv.contains a = true) : inv_add inv adds = inv := by
  induction adds with
  | nil => rfl
  | cons a rest ih =>
    rw [inv_add_cons, if_pos (h a (by simp))]
    exact ih (fun b hb => h b (by simp [hb]))

theorem inv_remove_nodup (rems : List String) (inv : List String) (h : inv.Nodup) :
    (inv_remove inv rems).Nodup := by
  induction rems generalizing inv with
  | nil => exact h
  | cons a rest ih => exact ih _ (h.erase a)

theorem mem_names_ev_add_left (adds : List Evidence) (ev : List Evidence) (x : String)
    (hx : x ∈ evidence_names ev) : x ∈ evidence_names (ev_add ev adds) := by
  induction adds generalizing ev with
  | nil => exact hx
  | cons e rest ih =>
    rw [ev_add_cons]
    by_cases hc : (evidence_names ev).contains e.name
    · rw [if_pos hc]; exact ih ev hx
    · rw [if_neg hc]
      refine ih _ ?ml
      simpa [evidence_names] using Or.inl hx

theorem mem_names_ev_add_adds (adds : List Evidence) (ev : List Evidence) (e : Evidence)
    (he : e ∈ adds) : e.name ∈ evidence_names (ev_add ev adds) := by
  induction adds generalizing ev with
  | nil => cases he
  | cons b rest ih =>
    rw [ev_add_cons]
    rcases List.mem_cons.mp he with heb | hmem
    · subst heb
      by_cases hc : (evidence_names ev).contains e.name
      · rw [if_pos hc]
        exact mem_names_ev_add_left rest ev e.name (by simpa using hc)
      · rw [if_neg hc]
        refine mem_names_ev_add_left rest _ e.name ?mr
        simp [evidence_names]
    · by_cases hc : (evidence_names ev).contains b.name
      · rw [if_pos hc]; exact ih ev hmem
      · rw [if_neg hc]; exact ih _ hmem

theorem ev_add_names_nodup (adds : List Evidence) (ev : List Evidence)
    (h : (evidence_names ev).Nodup) : (evidence_names (ev_add ev adds)).Nodup := by
  induction adds generalizing ev with
  | nil => exact h
  | cons e rest ih =>
    rw [ev_add_cons]
    by_cases hc : (evidence_names ev).contains e.name
    · rw [if_pos hc]; exact ih ev h
    · rw [if_neg hc]
      refine ih _ ?np
      have hn : e.name ∉ evidence_names ev := by simpa using hc
      simp [evidence_names, List.nodup_append] at h hn ⊢
      exact ⟨h, hn⟩

theorem ev_add_eq_self (adds : List Evidence) (ev : List Evidence)
    (h : ∀ e ∈ adds, (evidence_names ev).contains e.name = true) :
    ev_add ev adds = ev := by
  induction adds with
  | nil => rfl
  | cons e rest ih =>
    rw [ev_add_cons, if_pos (h e (by simp))]
    exact ih (fun b hb => h b (by simp [hb]))

/-- C5: effect application never duplicates collection entries: it
preserves name-uniqueness of the collected evidence and uniqueness of
inventory ids, and for a choice with no inventory removals a second
application of the same choice leaves the inventory and evidence lists
exactly as the first application left them. -/
theorem effects_idempotent (choice : Choice) (s t : GameState)
    (h : apply_choice_effects choice s = some t) :
    ((evidence_names s.evidence).Nodup → (evidence_names t.evidence).Nodup) ∧
      (s.inventory.Nodup → t.inventory.Nodup) ∧
      (optList choice.inventory_remove = [] →
        ∀ u : GameState, apply_choice_effects choice t = some u →
          u.inventory = t.inventory ∧ u.evidence = t.evidence) := by
  obtain ⟨hinv, hev, -, -, -, -, -⟩ := apply_fields choice s t h
  refine ⟨?evp, ?invp, ?idem⟩
  · intro hnd
    rw [hev]
    exact ev_add_names_nodup _ _ hnd
  · intro hnd
    rw [hinv]
    exact inv_remove_nodup _ _ (inv_add_nodup _ _ hnd)
  · intro hrem u hu
    obtain ⟨huinv, huev, -, -, -, -, -⟩ := apply_fields choice t u hu
    rw [hrem, inv_remove_nil] at hinv huinv
    constructor
    · rw [huinv, hinv]
      refine inv_add_eq_self _ _ ?ic
      intro a ha
      simpa using mem_inv_add_adds _ s.inventory a ha
    · rw [huev, hev]
      refine ev_add_eq_self _ _ ?ec
      intro e he
      simpa using mem_names_ev_add_adds _ s.evidence e he

/-- The evidence catalog, translated from
`BlackwoodMansionGame.create_evidence_database` (`MAIN.py` lines 72-115):
the internal key indexes the entry, the first constructor argument is
the display `name`. -/
def all_evidence : List (String × Evidence) := [
  ("server_logs",
    { name := "Server Logs",
      descr := "Corrupted logs from Ada's main system",
      tags := ["technical", "ai"] }),
  ("medical_records",
    { name := "Medical Records",
      descr := "Marcus's recent medical history",
      tags := ["medical"] }),
  ("financial_records",
    { name := "Financial Records",
      descr := "Suspicious financial transactions linked to Elena",
      tags := ["financial", "personal"] }),
  ("broken_window",
    { name := "Broken Window",
      descr := "A partially opened window on the second floor",
      tags := ["personal", "security"] }),
  ("muddy_footprints",
    { name := "Muddy Footprints",
      descr := "Fresh tracks leading to the study",
      tags := ["personal", "security"] }),
  ("camera_footage",
    { name := "Camera Footage",
      descr := "Corrupted files from last night",
      tags := ["technical", "security"] }),
  ("system_breach",
    { name := "System Breach",
      descr := "Evidence of recent unauthorized access",
      tags := ["technical", "security"] }),
  ("secret_passage_map",
    { name := "Secret Passage Map",
      descr := "A map revealing hidden passages within the mansion",
      tags := ["personal", "secret"] })]

/-- The catalog entry keyed `secret_passage_map`, whose display name is
`Secret Passage Map` (`MAIN.py` lines 110-114). -/
def secret_passage_map_ev : Evidence :=
  { name := "Secret Passage Map",
    descr := "A map revealing hidden passages within the mansion",
    tags := ["personal", "secret"] }

theorem secret_passage_map_ev_in_catalog :
    ("secret_passage_map", secret_passage_map_ev) ∈ all_evidence := by decide

/-- A probe choice adding an item and an evidence entry that the base
state below already holds, used to witness idempotence. -/
def idem_probe_choice : Choice :=
  { descr := "idem probe", next_location := "main_hall",
    inventory_add := some ["lockpick"],
    evidence_add := some [secret_passage_map_ev] }

/-- A state already holding the lockpick and the secret passage map. -/
def idem_base_state : GameState :=
  { initial_state with
      inventory := ["lockpick"],
      evidence := [secret_passage_map_ev] }

/-- The idempotence base state after one application of the probe. -/
def idem_state_one : GameState :=
  (apply_choice_effects idem_probe_choice idem_base_state).getD idem_base_state

/-- The idempotence base state after two applications of the probe. -/
def idem_state_two : GameState :=
  (apply_choice_effects idem_probe_choice idem_state_one).getD idem_base_state

theorem effects_idempotent_witness :
    (evidence_names idem_state_one.evidence).Nodup ∧ idem_state_one.inventory.Nodup ∧
      idem_state_two.inventory = idem_state_one.inventory ∧
      idem_state_two.evidence = idem_state_one.evidence := by
  have h := effects_idempotent idem_probe_choice idem_base_state idem_state_one rfl
  exact ⟨h.1 (by decide), h.2.1 (by decide), h.2.2 rfl idem_state_two rfl⟩

/-- Sequential effect application over a list of taken choices: the
turn loop applies each taken choice exactly once (`MAIN.py` line 1246),
and no other component writes `time_remaining`. -/
def apply_choices : List Choice → GameState → Option GameState
  | [], s => some s
  | c :: rest, s =>
    match apply_choice_effects c s with
    | none => none
    | some t => apply_choices rest t

theorem apply_choices_time (cs : List Choice) (s t : GameState)
    (h : apply_choices cs s = some t) :
    t.time_remaining = s.time_remaining - (cs.map (fun c => c.time_cost)).sum := by
  induction cs generalizing s with
  | nil =>
    simp only [apply_choices, Option.some.injEq] at h
    subst h
    simp
  | cons c rest ih =>
    unfold apply_choices at h
    cases hc : apply_choice_effects c s with
    | none => rw [hc] at h; exact absurd h (by simp)
    | some u =>
      rw [hc] at h
      obtain ⟨-, -, -, -, htime, -, -⟩ := apply_fields c s u hc
      rw [ih u h, htime]
      simp only [List.map_cons, List.sum_cons]
      ring

/-- C6: starting from the initial 24 hours, after any successfully
applied sequence of choices the remaining time is exactly `24` minus
the sum of the taken choices' time costs, and (for non-negative time
costs, which is all the content uses) a single transition never
increases `time_remaining`. -/
theorem time_budget (cs : List Choice) (t : GameState)
    (h : apply_choices cs initial_state = some t) :
    t.time_remaining = 24 - (cs.map (fun c => c.time_cost)).sum ∧
      ∀ c : Choice, ∀ u v : GameState, 0 ≤ c.time_cost →
        apply_choice_effects c u = some v → v.time_remaining ≤ u.time_remaining := by
  constructor
  · rw [apply_choices_time cs initial_state t h]
    rfl
  · intro c u v hc happ
    obtain ⟨-, -, -, -, htime, -, -⟩ := apply_fields c u v happ
    rw [htime]
    omega

/-- A probe choice with time cost 2. -/
def time_probe_one : Choice :=
  { descr := "time probe one", next_location := "main_hall", time_cost := 2 }

/-- A probe choice with time cost 1. -/
def time_probe_two : Choice :=
  { descr := "time probe two", next_location := "main_hall", time_cost := 1 }

/-- The state after taking the two time probes from the initial state. -/
def time_probe_final : GameState :=
  (apply_choices [time_probe_one, time_probe_two] initial_state).getD initial_state

theorem time_budget_witness :
    time_probe_final.time_remaining
        = 24 - ([time_probe_one, time_probe_two].map (fun c => c.time_cost)).sum ∧
      0 ≤ clamp_probe_choice.time_cost ∧
      clamp_probe_state.time_remaining ≤ initial_state.time_remaining := by
  have h := time_budget [time_probe_one, time_probe_two] time_probe_final rfl
  exact ⟨h.1, by decide,
    h.2 clamp_probe_choice initial_state clamp_probe_state (by decide) rfl⟩

/-- Evidence-name membership `any(e.name == n for e in
self.state.evidence)`, as used by the ending resolver. -/
def has_evidence (s : GameState) (n : String) : Bool :=
  s.evidence.any (fun e => e.name == n)

/-- Flag read with a default, `self.state.flags.get(flag, False)`, as
used by the ending resolver: an absent flag reads as `False` here. -/
def flag_default (s : GameState) (k : String) : Bool :=
  (s.flags k).getD false

/-- Ending resolver, translated from
`BlackwoodMansionGame.check_ending_conditions` (`MAIN.py` lines
1150-1184).  The outer `Option` layer records whether evaluation is
defined: an unguarded `relationships[...]` lookup on a missing key
raises `KeyError` in Python, embedded as the outer `none`; `and`
short-circuits, so a lookup is only forced when the conjuncts before it
hold.  The inner value is the returned ending id (`Option.none` for
Python `None`, play continues).  Note the last rule compares evidence
names against the catalog key string `"secret_passage_map"` (line
1181), not a display name. -/
def check_ending_conditions (s : GameState) : Option (Option String) :=
  if s.time_remaining ≤ 0 then some (some "timeout") else
  match (if has_evidence s "Server Logs" && flag_default s "found_secret_passage"
         then (s.relationships "ada").map (fun v => decide (v > 3)) else some false) with
  | none => none
  | some true => some (some "ai_conspiracy")
  | some false =>
  match (if has_evidence s "Financial Records" && flag_default s "found_secret_passage"
         then (s.relationships "elena").map (fun v => decide (v < -2)) else some false) with
  | none => none
  | some true => some (some "perfect_crime")
  | some false =>
  match (if has_evidence s "System Breach"
         then (s.relationships "gregory").map (fun v => decide (v > 2)) else some false) with
  | none => none
  | some true => some (some "system_breach_ending")
  | some false =>
  if s.stress_level ≥ 10 then some (some "personal_tragedy") else
  match (if flag_default s "marcus_ai_connection"
         then (s.relationships "ada").map (fun v => decide (v < 0)) else some false) with
  | none => none
  | some true => some (some "marcus_ai_conspiracy")
  | some false =>
  match s.relationships "victoria" with
  | none => none
  | some v =>
    if decide (v > 3) && (evidence_names s.evidence).contains "secret_passage_map" then
      some (some "victoria_alliance")
    else
      some none

/-- First-match-wins evaluation of a priority-ordered list of
(condition, ending id) rules. -/
def first_match : List (Bool × String) → Option String
  | [] => none
  | bs :: rest => if bs.1 then some bs.2 else first_match rest

/-- The seven terminal predicates of the resolver, in source order,
with the relationship values `a` (ada), `e` (elena), `g` (gregory) and
`v` (victoria) passed explicitly. -/
def ending_conditions (s : GameState) (a e g v : Int) : List (Bool × String) := [
  (decide (s.time_remaining ≤ 0), "timeout"),
  (has_evidence s "Server Logs" && flag_default s "found_secret_passage"
    && decide (a > 3), "ai_conspiracy"),
  (has_evidence s "Financial Records" && flag_default s "found_secret_passage"
    && decide (e < -2), "perfect_crime"),
  (has_evidence s "System Breach" && decide (g > 2), "system_breach_ending"),
  (decide (s.stress_level ≥ 10), "personal_tragedy"),
  (flag_default s "marcus_ai_connection" && decide (a < 0), "marcus_ai_conspiracy"),
  (decide (v > 3) && (evidence_names s.evidence).contains "secret_passage_map",
    "victoria_alliance")]

theorem opt_guard (b x : Bool) :
    (if b = true then Option.some x else some false) = some (b && x) := by
  cases b <;> simp

theorem check_ending_chain (s : GameState) (a e g v : Int)
    (ha : s.relationships "ada" = some a) (he : s.relationships "elena" = some e)
    (hg : s.relationships "gregory" = some g) (hv : s.relationships "victoria" = some v) :
    check_ending_conditions s = some (first_match (ending_conditions s a e g v)) := by
  unfold check_ending_conditions
  rw [ha, he, hg, hv]
  simp only [Option.map_some', opt_guard, ending_conditions, first_match]
  by_cases h1 : s.time_remaining ≤ 0
  · simp [h1]
  · simp only [h1, if_false, decide_eq_false h1, Bool.false_eq_true]
    cases h2 : (has_evidence s "Server Logs" && flag_default s "found_secret_passage")
        && decide (a > 3) with
    | true => simp [h2]
    | false =>
      simp only [Bool.false_eq_true, if_false]
      cases h3 : (has_evidence s "Financial Records" && flag_default s "found_secret_passage")
          && decide (e < -2) with
      | true => simp [h3]
      | false =>
        simp only [Bool.false_eq_true, if_false]
        cases h4 : has_evidence s "System Breach" && decide (g > 2) with
        | true => simp [h4]
        | false =>
          simp only [Bool.false_eq_true, if_false]
          by_cases h5 : s.stress_level ≥ 10
          · simp [h5]
          · simp only [h5, if_false, decide_eq_false h5, Bool.false_eq_true]
            cases h6 : flag_default s "marcus_ai_connection" && decide (a < 0) with
            | true => simp [h6]
            | false =>
              simp only [Bool.false_eq_true, if_false]
              cases h7 : decide (v > 3) && (evidence_names s.evidence).contains
                  "secret_passage_map" with
              | true => simp [h7]
              | false => simp [h7]

/-- C2: for any state on which the four relationship lookups of the
resolver are defined, `check_ending_conditions` returns exactly the
first match of the seven priority-ordered terminal predicates (and
`none` when no predicate matches); in particular `timeRemaining <= 0`
alone already forces `timeout`, so a state that also satisfies the
`ai_conspiracy` condition still resolves to `timeout`. -/
theorem ending_priority (s : GameState) (a e g v : Int)
    (ha : s.relationships "ada" = some a) (he : s.relationships "elena" = some e)
    (hg : s.relationships "gregory" = some g) (hv : s.relationships "victoria" = some v) :
    check_ending_conditions s = some (first_match (ending_conditions s a e g v)) ∧
      (s.time_remaining ≤ 0 → check_ending_conditions s = some (some "timeout")) := by
  refine ⟨check_ending_chain s a e g v ha he hg hv, ?t⟩
  intro ht
  unfold check_ending_conditions
  rw [if_pos ht]

/-- The catalog entry keyed `server_logs` (`MAIN.py` lines 75-79). -/
def server_logs_ev : Evidence :=
  { name := "Server Logs",
    descr := "Corrupted logs from Ada's main system",
    tags := ["technical", "ai"] }

/-- A state satisfying both the `timeout` condition and the
`ai_conspiracy` condition: no time left, Server Logs collected,
`found_secret_passage` set, ada relationship above 3. -/
def priority_probe_state : GameState :=
  { initial_state with
      time_remaining := 0,
      evidence := [server_logs_ev],
      flags := fun k => if k = "found_secret_passage" then some true else none,
      relationships := fun k =>
        if k = "ada" then some 4 else initial_state.relationships k }

theorem ending_priority_witness :
    has_evidence priority_probe_state "Server Logs" = true ∧
      flag_default priority_probe_state "found_secret_passage" = true ∧
      priority_probe_state.time_remaining ≤ 0 ∧
      check_ending_conditions priority_probe_state = some (some "timeout") := by
  have h := ending_priority priority_probe_state 4 0 0 0 rfl rfl rfl rfl
  exact ⟨by decide, by decide, by decide, h.2 (by decide)⟩

/-- A state meeting the spec's `victoria_alliance` premise: victoria
relationship above 3 and the evidence item named `Secret Passage Map`
(as the catalog defines and the content collects it) in the evidence
list, with every other ending condition false. -/
def victoria_probe_state : GameState :=
  { initial_state with
      evidence := [secret_passage_map_ev],
      relationships := fun k =>
        if k = "victoria" then some 4 else initial_state.relationships k }

/-- C7: the code's `victoria_alliance` rule compares collected evidence
names against the catalog key string `"secret_passage_map"`, while the
evidence the catalog defines and the content collects is named
`"Secret Passage Map"`; on a state satisfying the spec's premise the
resolver therefore returns no ending at all. -/
theorem victoria_alliance_unreachable :
    victoria_probe_state.relationships "victoria" = some 4 ∧ (4 : Int) > 3 ∧
      has_evidence victoria_probe_state "Secret Passage Map" = true ∧
      check_ending_conditions victoria_probe_state = some none := by
  exact ⟨by decide, by decide, by decide, by decide⟩

theorem rel_apply_domain (l : List (String × Int)) (r r2 : String → Option Int)
    (h : rel_apply r l = some r2) (k : String) : (r2 k).isSome = (r k).isSome := by
  induction l generalizing r with
  | nil =>
    unfold rel_apply at h
    simp only [Option.some.injEq] at h
    subst h
    rfl
  | cons cd rest ih =>
    unfold rel_apply at h
    cases hc : r cd.1 with
    | none => rw [hc] at h; exact absurd h (by simp)
    | some val =>
      rw [hc] at h
      rw [ih _ h]
      by_cases hk : k = cd.1
      · simp [hk, hc]
      · simp [hk]

/-- C10: the key set of the relationships mapping is invariant: the
initial state defines exactly the keys elena, james, victoria, gregory
and ada; effect application never adds or removes a key (it only
rewrites present keys); and on any state whose map is defined on the
four keys the resolver reads, `check_ending_conditions` evaluates
without a lookup failure. -/
theorem relationships_keys_invariant :
    (∀ k : String, (initial_state.relationships k).isSome = true ↔
        k ∈ ["elena", "james", "victoria", "gregory", "ada"]) ∧
      (∀ choice : Choice, ∀ s t : GameState, apply_choice_effects choice s = some t →
        ∀ k : String, (t.relationships k).isSome = (s.relationships k).isSome) ∧
      (∀ s : GameState,
        (s.relationships "ada").isSome = true → (s.relationships "elena").isSome = true →
          (s.relationships "gregory").isSome = true →
            (s.relationships "victoria").isSome = true →
              check_ending_conditions s ≠ none) := by
  refine ⟨?init, ?preserve, ?defined⟩
  · intro k
    simp only [initial_state]
    split_ifs with hh1 hh2 hh3 hh4 hh5 <;> simp_all
  · intro choice s t h k
    obtain ⟨-, -, -, -, -, -, hrel⟩ := apply_fields choice s t h
    exact rel_apply_domain _ _ _ hrel k
  · intro s hsa hse hsg hsv
    rcases Option.isSome_iff_exists.mp hsa with ⟨a, hav⟩
    rcases Option.isSome_iff_exists.mp hse with ⟨e, hev⟩
    rcases Option.isSome_iff_exists.mp hsg with ⟨g, hgv⟩
    rcases Option.isSome_iff_exists.mp hsv with ⟨v, hvv⟩
    rw [check_ending_chain s a e g v hav hev hgv hvv]
    simp

theorem relationships_keys_invariant_witness :
    (initial_state.relationships "ada").isSome = true ∧
      (clamp_probe_state.relationships "elena").isSome
          = (initial_state.relationships "elena").isSome ∧
      check_ending_conditions priority_probe_state ≠ none := by
  have h := relationships_keys_invariant
  exact ⟨(h.1 "ada").mpr (by decide),
    h.2.1 clamp_probe_choice initial_state clamp_probe_state rfl "elena",
    h.2.2 priority_probe_state (by decide) (by decide) (by decide) (by decide)⟩

/-- The descending comparison used on threshold entries:
`sorted(self.time_descriptions.items(), reverse=True)` orders the
(threshold, text) pairs by decreasing threshold (keys are unique within
a dict, so the key comparison decides). -/
def tdLE (a b : Int × String) : Prop := b.1 ≤ a.1

instance : DecidableRel tdLE := fun a b => inferInstanceAs (Decidable (b.1 ≤ a.1))

instance : IsTotal (Int × String) tdLE := ⟨fun a b => le_total b.1 a.1⟩

instance : IsTrans (Int × String) tdLE := ⟨fun _ _ _ h1 h2 => le_trans h2 h1⟩

/-- Description selector, translated from the turn loop (`MAIN.py`
lines 1218-1222): scan the threshold entries in descending threshold
order and return the text of the first with
`time_remaining <= threshold`, or the base description when none
qualifies. -/
def select_description (base : String) (tds : List (Int × String)) (t : Int) : String :=
  match (List.insertionSort tdLE tds).find? (fun p => decide (t ≤ p.1)) with
  | some p => p.2
  | none => base

/-- C3 counterexample: with thresholds `{12: "A", 6: "B"}` and
`time_remaining = 6` the code scans descending and first hits `6 <= 12`,
returning `"A"`, not the `"B"` the claim requires. -/
theorem tightest_threshold_refuted :
    select_description "C" [(12, "A"), (6, "B")] 6 = "A" ∧
      ¬ select_description "C" [(12, "A"), (6, "B")] 6 = "B" := by
  constructor <;> decide

theorem find_first_qualifying (t : Int) (l : List (Int × String))
    (hs : List.Sorted tdLE l) (p : Int × String) (hp : p ∈ l) (hq : t ≤ p.1)
    (hmax : ∀ q ∈ l, t ≤ q.1 → q.1 ≤ p.1) :
    ∃ w, l.find? (fun x => decide (t ≤ x.1)) = some w ∧ w ∈ l ∧ w.1 = p.1 := by
  induction l with
  | nil => cases hp
  | cons x rest ih =>
    by_cases hx : t ≤ x.1
    · refine ⟨x, ?f, by simp, ?k⟩
      · exact List.find?_cons_of_pos _ (by simpa using hx)
      · have h1 : x.1 ≤ p.1 := hmax x (by simp) hx
        rcases List.mem_cons.mp hp with hpx | hpr
        · rw [hpx]
        · have h2 : p.1 ≤ x.1 := List.rel_of_sorted_cons hs p hpr
          exact le_antisymm h1 h2
    · have hpr : p ∈ rest := by
        rcases List.mem_cons.mp hp with hpx | hpr
        · exact absurd (hpx ▸ hq) hx
        · exact hpr
      obtain ⟨w, hw1, hw2, hw3⟩ := ih (List.sorted_cons.mp hs).2 hpr
        (fun q hq2 ht2 => hmax q (by simp [hq2]) ht2)
      refine ⟨w, ?f2, by simp [hw2], hw3⟩
      rw [List.find?_cons_of_neg _ (by simpa using hx)]
      exact hw1

/-- C3 amended: the selector returns the text of the LARGEST threshold
that `time_remaining` has fallen to or below (the most lenient
qualifying threshold, not the tightest), and the base description when
no threshold qualifies; on thresholds `{12: "A", 6: "B"}` with base
`"C"` this yields `20 -> "C"`, `12 -> "A"`, `6 -> "A"`, `3 -> "A"`. -/
theorem select_description_largest (base : String) (tds : List (Int × String)) (t : Int)
    (hnd : (tds.map Prod.fst).Nodup) :
    ((∀ q ∈ tds, ¬ t ≤ q.1) → select_description base tds t = base) ∧
      (∀ p ∈ tds, t ≤ p.1 → (∀ q ∈ tds, t ≤ q.1 → q.1 ≤ p.1) →
        select_description base tds t = p.2) ∧
      (select_description "C" [(12, "A"), (6, "B")] 20 = "C" ∧
        select_description "C" [(12, "A"), (6, "B")] 12 = "A" ∧
        select_description "C" [(12, "A"), (6, "B")] 6 = "A" ∧
        select_description "C" [(12, "A"), (6, "B")] 3 = "A") := by
  refine ⟨?noneq, ?maxq, by decide, by decide, by decide, by decide⟩
  · intro hq
    unfold select_description
    have hnone : (List.insertionSort tdLE tds).find? (fun x => decide (t ≤ x.1)) = none := by
      apply List.find?_eq_none.mpr
      intro x hx
      simpa using hq x (by simpa using hx)
    rw [hnone]
  · intro p hp hq hmax
    obtain ⟨w, hw1, hw2, hw3⟩ := find_first_qualifying t _
      (List.sorted_insertionSort tdLE tds) p (by simpa using hp) hq
      (fun q hq2 ht2 => hmax q (by simpa using hq2) ht2)
    unfold select_description
    rw [hw1]
    have hwtds : w ∈ tds := by simpa using hw2
    have hwp : w = p := List.inj_on_of_nodup_map hnd hwtds hp hw3
    rw [hwp]

theorem select_description_largest_witness :
    select_description "C" [(12, "A"), (6, "B")] 6 = "A" := by
  have h := select_description_largest "C" [(12, "A"), (6, "B")] 6 (by decide)
  exact h.2.1 (12, "A") (by decide) (by decide) (by decide)

/-- The ids of every location registered through `add_location`
(`MAIN.py`: the `all_general_locations`, `security_locations`,
`victoria_locations` and `marcus_locations` lists). -/
def location_ids : List String := [
  "mansion_entrance", "mansion_exterior", "tool_shed", "search_tools_result",
  "library", "search_books_result", "secret_passage", "hidden_room",
  "terminal_investigation", "decrypt_logs_result", "analyze_logs_result",
  "search_room_result", "analyze_breach_result", "security_report",
  "main_hall", "main_hall_search", "study", "desk_inspect",
  "analyze_records_result", "elena_confrontation", "elena_conversation",
  "james_conversation", "ada_conversation",
  "security_office", "review_surveillance", "gregory_security_conversation",
  "victoria_conversation", "victoria_marcus_info", "mansion_history",
  "victoria_secrets_info", "hidden_compartments", "compartments_search",
  "investigate_medical_records", "connect_ai_marcus", "report_health",
  "press_officials", "officials_investigation", "await_results",
  "ada_confrontation", "ada_deep_reveal"]

/-- The externally maintained dialogue subset of the turn loop
(`MAIN.py` lines 1250-1253). -/
def dialogue_location_ids : List String :=
  ["elena_conversation", "james_conversation", "ada_conversation",
    "victoria_conversation"]

/-- The exploring loop's location resolution (`MAIN.py` lines
1209-1213): `self.locations.get(...)` on an unknown id prints a fatal
error and breaks the loop, embedded as `none`; a known id resolves to
itself and play continues. -/
def play_resolve_location (known : List String) (loc : String) : Option String :=
  if known.contains loc then some loc else none

/-- The dialogue sub-loop's post-choice location update (`MAIN.py`
lines 1122-1126): an outcome id that is not a known location is
silently replaced by `main_hall`; a known id is kept. -/
def conversation_result_location (known : List String) (outcome : String) : String :=
  if known.contains outcome then outcome else "main_hall"

/-- One exploring-loop transition (`MAIN.py` lines 1245-1247): apply
the chosen choice's effects, then move to its destination. -/
def play_explore_step (choice : Choice) (s : GameState) : Option GameState :=
  match apply_choice_effects choice s with
  | none => none
  | some t => some { t with current_location := choice.next_location }

/-- One dialogue sub-loop transition (`MAIN.py` lines 1112-1126): apply
the chosen choice's effects (the outcome handler only prints), then set
the location to the outcome if it is a known location and to
`main_hall` otherwise. -/
def play_conversation_step (choice : Choice) (s : GameState) : Option GameState :=
  match apply_choice_effects choice s with
  | none => none
  | some t =>
    some { t with
      current_location := conversation_result_location location_ids choice.next_location }

/-- The dialogue sub-loop's no-available-choices exit (`MAIN.py` lines
1101-1105): force the location back to `main_hall` without applying any
effects. -/
def play_conversation_exhausted (s : GameState) : GameState :=
  { s with current_location := "main_hall" }

/-- The `press_elena` choice of `elena_conversation` (`MAIN.py` lines
582-588). -/
def press_elena_choice : Choice :=
  { descr := "Press Elena for more information", next_location := "elena_reveal",
    time_cost := 2, relationship_changes := some [("elena", -1)],
    flags_change := some [("elena_revealed", true)] }

/-- The `get_back` choice of `elena_conversation` (`MAIN.py` lines
589-593). -/
def get_back_choice : Choice :=
  { descr := "Steer the conversation elsewhere", next_location := "main_hall" }

/-- The choices of the `elena_conversation` location (`MAIN.py` lines
578-595). -/
def elena_conversation_choices : List (String × Choice) :=
  [("press_elena", press_elena_choice), ("get_back", get_back_choice)]

/-- The `james_reveal` choice of `james_conversation` (`MAIN.py` lines
601-607). -/
def james_reveal_choice : Choice :=
  { descr := "Question James about his activities last night",
    next_location := "james_reveal", time_cost := 2,
    relationship_changes := some [("james", 1)],
    flags_change := some [("james_revealed", true)] }

/-- The `end_conversation` choice of `james_conversation` (`MAIN.py`
lines 608-612). -/
def end_conversation_choice : Choice :=
  { descr := "End the conversation", next_location := "main_hall" }

/-- The choices of the `james_conversation` location (`MAIN.py` lines
597-614). -/
def james_conversation_choices : List (String × Choice) :=
  [("james_reveal", james_reveal_choice), ("end_conversation", end_conversation_choice)]

/-- The `ask_about_ai` choice of `ada_conversation` (`MAIN.py` lines
620-626). -/
def ask_about_ai_choice : Choice :=
  { descr := "Ask Ada about her AI systems", next_location := "ada_ai_info",
    time_cost := 2, relationship_changes := some [("ada", 1)],
    flags_change := some [("ada_ai_info", true)] }

/-- The `discuss_family` choice of `ada_conversation` (`MAIN.py` lines
627-632). -/
def discuss_family_choice : Choice :=
  { descr := "Discuss the Blackwood family history",
    next_location := "ada_family_history", time_cost := 2,
    relationship_changes := some [("ada", 1)] }

/-- The choices of the `ada_conversation` location (`MAIN.py` lines
616-634). -/
def ada_conversation_choices : List (String × Choice) :=
  [("ask_about_ai", ask_about_ai_choice), ("discuss_family", discuss_family_choice)]

/-- The `ask_about_marcus` choice of `victoria_conversation` (`MAIN.py`
lines 732-738). -/
def ask_about_marcus_choice : Choice :=
  { descr := "Ask Victoria about Marcus's recent behavior",
    next_location := "victoria_marcus_info", time_cost := 2,
    relationship_changes := some [("victoria", 1)],
    flags_change := some [("victoria_marcus_info", true)] }

/-- The `discuss_mansion_history` choice of `victoria_conversation`
(`MAIN.py` lines 739-743). -/
def discuss_mansion_history_choice : Choice :=
  { descr := "Discuss the history of Blackwood Manor",
    next_location := "mansion_history", time_cost := 2 }

/-- The `leave_victoria` choice of `victoria_conversation` (`MAIN.py`
lines 744-748). -/
def leave_victoria_choice : Choice :=
  { descr := "Leave the conversation with Victoria", next_location := "main_hall" }

/-- The choices of the `victoria_conversation` location (`MAIN.py`
lines 728-750). -/
def victoria_conversation_choices : List (String × Choice) :=
  [("ask_about_marcus", ask_about_marcus_choice),
    ("discuss_mansion_history", discuss_mansion_history_choice),
    ("leave_victoria", leave_victoria_choice)]

/-- The state after taking `press_elena` in the dialogue sub-loop from
the initial state. -/
def conv_probe_state : GameState :=
  (play_conversation_step press_elena_choice initial_state).getD initial_state

/-- The state after taking `press_elena` in the exploring loop from the
initial state. -/
def explore_probe_state : GameState :=
  (play_explore_step press_elena_choice initial_state).getD initial_state

/-- C8 counterexample: `press_elena`, a dialogue choice of
`elena_conversation`, has the unknown destination `elena_reveal`, and
the dialogue sub-loop silently replaces it with `main_hall` and play
continues, contradicting the claim that an unknown destination is
always a propagated fatal error. -/
theorem unknown_destination_substituted :
    ("press_elena", press_elena_choice) ∈ elena_conversation_choices ∧
      dialogue_location_ids.contains "elena_conversation" = true ∧
      press_elena_choice.next_location = "elena_reveal" ∧
      location_ids.contains "elena_reveal" = false ∧
      play_conversation_step press_elena_choice initial_state = some conv_probe_state ∧
      conv_probe_state.current_location = "main_hall" := by
  exact ⟨by decide, by decide, by decide, by decide, rfl, by decide⟩

/-- C8 amended: an unknown destination is fatal only in the exploring
loop, where the next iteration's location lookup fails and the run
stops with an error; in the dialogue sub-loop an unknown destination is
silently replaced by `main_hall` and play continues. -/
theorem unknown_location_handling (choice : Choice) (s t : GameState)
    (hunknown : location_ids.contains choice.next_location = false) :
    (play_explore_step choice s = some t →
      play_resolve_location location_ids t.current_location = none) ∧
      (play_conversation_step choice s = some t → t.current_location = "main_hall") := by
  constructor
  · intro h
    unfold play_explore_step at h
    cases hc : apply_choice_effects choice s with
    | none => rw [hc] at h; exact absurd h (by simp)
    | some u =>
      rw [hc] at h
      simp only [Option.some.injEq] at h
      subst h
      unfold play_resolve_location
      have hmem : choice.next_location ∉ location_ids := by simpa using hunknown
      simp [hmem]
  · intro h
    unfold play_conversation_step at h
    cases hc : apply_choice_effects choice s with
    | none => rw [hc] at h; exact absurd h (by simp)
    | some u =>
      rw [hc] at h
      simp only [Option.some.injEq] at h
      subst h
      show conversation_result_location location_ids choice.next_location = "main_hall"
      unfold conversation_result_location
      have hmem : choice.next_location ∉ location_ids := by simpa using hunknown
      simp [hmem]

theorem unknown_location_handling_witness :
    location_ids.contains press_elena_choice.next_location = false ∧
      play_resolve_location location_ids explore_probe_state.current_location = none ∧
      conv_probe_state.current_location = "main_hall" := by
  have h1 := unknown_location_handling press_elena_choice initial_state
    explore_probe_state (by decide)
  have h2 := unknown_location_handling press_elena_choice initial_state
    conv_probe_state (by decide)
  exact ⟨by decide, h1.1 rfl, h2.2 rfl⟩

/-- The state after taking `ask_about_marcus` in the dialogue sub-loop
from the initial state. -/
def victoria_dialogue_probe : GameState :=
  (play_conversation_step ask_about_marcus_choice initial_state).getD initial_state

/-- C9 counterexample: `ask_about_marcus` is an available choice of the
dialogue location `victoria_conversation` whose destination
`victoria_marcus_info` is a known location; after applying it the
current location is `victoria_marcus_info`, not the hub `main_hall` the
claim requires regardless of destination. -/
theorem dialogue_choice_keeps_destination :
    dialogue_location_ids.contains "victoria_conversation" = true ∧
      ("ask_about_marcus", ask_about_marcus_choice) ∈ victoria_conversation_choices ∧
      play_conversation_step ask_about_marcus_choice initial_state
          = some victoria_dialogue_probe ∧
      victoria_dialogue_probe.current_location = "victoria_marcus_info" ∧
      ¬ victoria_dialogue_probe.current_location = "main_hall" := by
  exact ⟨by decide, by decide, rfl, by decide, by decide⟩

/-- C9 amended: after one dialogue choice the current location becomes
the choice's declared destination when that destination is a known
location id and `main_hall` otherwise (the exhausted-dialogue exit
always goes to `main_hall`); among the four dialogue locations the
destination is kept exactly for `victoria_conversation`'s
`ask_about_marcus` (`victoria_marcus_info`), `discuss_mansion_history`
(`mansion_history`) and the explicit `main_hall` exits, while every
other dialogue choice falls back to `main_hall`; control returns to the
exploring loop in all cases. -/
theorem dialogue_return_behavior (choice : Choice) (s t : GameState)
    (h : play_conversation_step choice s = some t) :
    t.current_location
        = (if location_ids.contains choice.next_location then choice.next_location
            else "main_hall") ∧
      (play_conversation_exhausted s).current_location = "main_hall" ∧
      ((victoria_conversation_choices.map (fun ic => ic.2.next_location)).filter
          (fun d => location_ids.contains d)
        = ["victoria_marcus_info", "mansion_history", "main_hall"]) ∧
      (((elena_conversation_choices ++ james_conversation_choices
            ++ ada_conversation_choices).map (fun ic => ic.2.next_location)).filter
          (fun d => location_ids.contains d)
        = ["main_hall", "main_hall"]) := by
  refine ⟨?loc, rfl, by decide, by decide⟩
  unfold play_conversation_step at h
  cases hc : apply_choice_effects choice s with
  | none => rw [hc] at h; exact absurd h (by simp)
  | some u =>
    rw [hc] at h
    simp only [Option.some.injEq] at h
    subst h
    show conversation_result_location location_ids choice.next_location = _
    unfold conversation_result_location
    rfl

/-- The state after taking `get_back` in the dialogue sub-loop from the
initial state. -/
def dialogue_return_probe : GameState :=
  (play_conversation_step get_back_choice initial_state).getD initial_state

theorem dialogue_return_behavior_witness :
    dialogue_return_probe.current_location
        = (if location_ids.contains get_back_choice.next_location
            then get_back_choice.next_location else "main_hall") :=
  (dialogue_return_behavior get_back_choice initial_state dialogue_return_probe rfl).1

end Blackwood
